import Mathlib

/-!
Verification of the file-transfer server (`src/server.c`) against its
natural-language specification.

The embedding models the server's per-connection protocol handling:

* `is_user_in_group`, `authenticate_user` — the Authentication Protocol
  (`server.c` lines 64–351), with the OS identity database (`getpwnam`,
  `getgrnam`) as an explicit environment `SysEnv`;
* `check_access`, `receive_file` — the File-Receive Protocol
  (`server.c` lines 356–513), with the filesystem as an association list
  from path strings to byte lists, `open(2)` fallibility as
  `StorageEnv.canOpen`, and the `pthread_mutex` as `acquire`/`release`
  events in an explicit trace.

Bytes are modelled as `Nat`, C strings as Lean `String` (one `Char` per
byte).  A `recv` on a message-oriented model of the stream either fails
(`none`, the C `bytes_received <= 0` case) or yields the message truncated
to the buffer capacity, mirroring `recv(sock, buf, sizeof(buf) - 1, 0)`.
The payload `recv` loop is modelled over an arbitrary schedule of chunks
(what each successive `recv` returned).
-/

namespace FileServer

/-- `BUFFER_SIZE` from `server.c`. -/
def BUFFER_SIZE : Nat := 1024

/-- `MANUFACTURING_DIR` from `server.c`. -/
def MANUFACTURING_DIR : String := "/tmp/fileserver/Manufacturing"

/-- `DISTRIBUTION_DIR` from `server.c`. -/
def DISTRIBUTION_DIR : String := "/tmp/fileserver/Distribution"

/-- `auth_info_t` from `server.c` (line 43): the session state bound to one
authenticated connection. -/
structure AuthInfo where
  username : String
  department : String
  uid : Nat
  gid : Nat
deriving DecidableEq, Repr

/-- One `passwd` entry, the result of `getpwnam` (fields the server uses). -/
structure PasswdEntry where
  uid : Nat
  gid : Nat
deriving DecidableEq, Repr

/-- One `group` entry, the result of `getgrnam` (fields the server uses):
the group id and the `gr_mem` member list. -/
structure GroupEntry where
  gid : Nat
  members : List String
deriving DecidableEq, Repr

/-- The OS identity database the server queries (the spec's external
Identity Provider): `getpwnam` and `getgrnam` as partial lookups. -/
structure SysEnv where
  getpwnam : String → Option PasswdEntry
  getgrnam : String → Option GroupEntry

/-- A `recv` into a buffer of capacity `cap + 1` bytes stores at most `cap`
bytes of the message (`recv(sock, buf, sizeof(buf) - 1, 0)` on a zeroed
buffer). -/
def recvMsg (s : String) (cap : Nat) : String :=
  ⟨s.data.take cap⟩

/-- `is_user_in_group` from `server.c` (lines 64–111): the user is in the
group iff the group exists and either the user is listed in `gr_mem` or the
group is the user's primary group. -/
def is_user_in_group (env : SysEnv) (username groupname : String) : Bool :=
  match env.getgrnam groupname with
  | none => false
  | some grp =>
    if grp.members.contains username then
      true
    else
      match env.getpwnam username with
      | none => false
      | some pwd => pwd.gid == grp.gid

/-- `authenticate_user` from `server.c` (lines 267–351).

Inputs are the two messages read from the stream (`none` models a `recv`
returning zero or fewer bytes).  Returns the session (`auth_info_t`) on
success and the list of textual responses sent to the peer.  The credential
message is read but its value is never inspected. -/
def authenticate_user (env : SysEnv) (usernameIn passwordIn : Option String) :
    Option AuthInfo × List String :=
  match usernameIn with
  | none => (none, [])
  | some uRaw =>
    let username := recvMsg uRaw 31
    match passwordIn with
    | none => (none, [])
    | some _ =>
      match env.getpwnam username with
      | none => (none, ["Authentication failed: User not found"])
      | some pwd =>
        let isManufacturing := is_user_in_group env username "Manufacturing"
        let isDistribution := is_user_in_group env username "Distribution"
        if isManufacturing && !isDistribution then
          (some ⟨username, "Manufacturing", pwd.uid, pwd.gid⟩,
           ["Authentication successful. Department: Manufacturing"])
        else if !isManufacturing && isDistribution then
          (some ⟨username, "Distribution", pwd.uid, pwd.gid⟩,
           ["Authentication successful. Department: Distribution"])
        else if isManufacturing && isDistribution then
          (some ⟨username, "Manufacturing", pwd.uid, pwd.gid⟩,
           ["Authentication successful. Department: Manufacturing"])
        else
          (none, ["Authentication failed: User not in required groups"])

/-- `check_access` from `server.c` (lines 356–365): the selected department
must equal the session's department exactly (`strcmp == 0`). -/
def check_access (department : String) (authInfo : AuthInfo) : Bool :=
  department == authInfo.department

/-- The filesystem: an association list from absolute path to file content
(bytes as `Nat`).  `fsSet` models `open(O_WRONLY|O_CREAT|O_TRUNC)` plus
writes; `fsGet` reads a file back. -/
def FileSys : Type := List (String × List Nat)

/-- Remove any binding of path `p`. -/
def fsErase : FileSys → String → FileSys
  | [], _ => []
  | e :: rest, p => if e.fst = p then fsErase rest p else e :: fsErase rest p

/-- Create-or-truncate-then-write: bind `p` to content `d`, removing any
previous binding. -/
def fsSet (fs : FileSys) (p : String) (d : List Nat) : FileSys :=
  (p, d) :: fsErase fs p

/-- Read the content stored at path `p`. -/
def fsGet : FileSys → String → Option (List Nat)
  | [], _ => none
  | e :: rest, p => if e.fst = p then some e.snd else fsGet rest p

/-- The bytes of a string, as written by `write(fd, s, strlen(s))`. -/
def strBytes (s : String) : List Nat :=
  s.data.map Char.toNat

/-- `strrchr(filepath, '/')` basename extraction from `server.c`
(lines 406–412): everything after the last `'/'`; the whole string when it
contains no `'/'`. -/
def extract_filename (filepath : String) : String :=
  ⟨filepath.data.foldl (fun acc c => if c = '/' then [] else acc ++ [c]) []⟩

/-- `snprintf(dest, 256, "%s/%s", dir, filename)` from `server.c`
(lines 417–421): the destination path, truncated to 255 bytes. -/
def dest_path (dir filename : String) : String :=
  ⟨(dir.data ++ '/' :: filename.data).take 255⟩

/-- `snprintf(attribution_path, 256, "%s/%s.owner", dir, filename)` from
`server.c` (lines 489–492): the attribution sidecar path, truncated to 255
bytes. -/
def attribution_path (dir filename : String) : String :=
  ⟨(dir.data ++ '/' :: (filename.data ++ ".owner".data)).take 255⟩

/-- The department directory used for both the destination path
(lines 418–421) and the attribution path ternary (line 491). -/
def dept_dir (department : String) : String :=
  if department = "Manufacturing" then MANUFACTURING_DIR else DISTRIBUTION_DIR

/-- Events of one `receive_file` run that the temporal claims observe:
mutex acquisition/release and the completion of the payload and sidecar
writes. -/
inductive Event where
  | acquire
  | release
  | payloadDone
  | sidecarDone
deriving DecidableEq, Repr

/-- The classification of the `return -1` exits of `receive_file`.
`connError` covers every `recv` of a protocol message yielding zero or
fewer bytes; `dataError` a failed `recv` inside the payload loop;
the remaining constructors the explicit error branches. -/
inductive RecvError where
  | connError
  | authzError
  | invalidDept
  | createError
  | dataError
deriving DecidableEq, Repr

/-- Outcome of one `receive_file` run: `result` is `none` on the `return 0`
path and `some e` on a `return -1` path; `fs` the filesystem afterwards;
`sent` the textual responses sent to the peer in order; `trace` the
observed events in order. -/
structure RecvOut where
  result : Option RecvError
  fs : FileSys
  sent : List String
  trace : List Event

/-- The storage environment: whether `open(p, O_WRONLY|O_CREAT|O_TRUNC)`
succeeds at path `p`, and the `strerror(errno)` text used in the
file-creation error message. -/
structure StorageEnv where
  canOpen : String → Bool
  errStr : String

/-- The payload loop of `server.c` (lines 455–471).  `chunks` is the
schedule of what each successive `recv` returned (an empty chunk models a
`recv` yielding zero or fewer bytes; an exhausted schedule models the peer
having closed, so the next `recv` returns 0).  Returns whether the loop
completed and the bytes written to the file so far. -/
def write_loop (chunks : List (List Nat)) (remaining : Nat) (acc : List Nat) :
    Bool × List Nat :=
  match chunks with
  | [] => if remaining = 0 then (true, acc) else (false, acc)
  | c :: cs =>
    if remaining = 0 then (true, acc)
    else if c.length = 0 then (false, acc)
    else write_loop cs (remaining - c.length) (acc ++ c)

/-- A valid `recv` schedule that delivers exactly `remaining` bytes: each
`recv` returns at least one byte and at most `min remaining BUFFER_SIZE`
(the `to_read` bound of line 458), and the stream ends exactly when the
full count is consumed. -/
def chunks_exact (remaining : Nat) (chunks : List (List Nat)) : Bool :=
  match chunks with
  | [] => remaining == 0
  | c :: cs =>
    (c.length != 0) && decide (c.length ≤ min remaining BUFFER_SIZE) &&
      chunks_exact (remaining - c.length) cs

/-- A valid but possibly short `recv` schedule: each `recv` returns at
least one byte and at most `min remaining BUFFER_SIZE`; the stream may end
before `remaining` bytes have been delivered. -/
def chunks_ok (remaining : Nat) (chunks : List (List Nat)) : Bool :=
  match chunks with
  | [] => true
  | c :: cs =>
    (c.length != 0) && decide (c.length ≤ min remaining BUFFER_SIZE) &&
      chunks_ok (remaining - c.length) cs

/-- The storage phase of `receive_file` (`server.c` lines 442–512): lock
the mutex, create-or-truncate the destination, run the payload loop, write
the attribution sidecar (silently skipped if its `open` fails, lines
494–500), unlock, send the success response. -/
def store_file (env : StorageEnv) (fs : FileSys) (authInfo : AuthInfo)
    (department filename : String) (file_size : Nat)
    (chunks : List (List Nat)) : RecvOut :=
  let dest := dest_path (dept_dir department) filename
  if env.canOpen dest then
    let fsOpened := fsSet fs dest []
    match write_loop chunks file_size [] with
    | (false, written) =>
      ⟨some .dataError, fsSet fsOpened dest written, [], [.acquire, .release]⟩
    | (true, data) =>
      let fsWritten := fsSet fsOpened dest data
      let attrPath := attribution_path (dept_dir department) filename
      let okMsg :=
        "File '" ++ filename ++ "' successfully transferred to " ++
          department ++ " department"
      if env.canOpen attrPath then
        ⟨none, fsSet fsWritten attrPath (strBytes authInfo.username), [okMsg],
         [.acquire, .payloadDone, .sidecarDone, .release]⟩
      else
        ⟨none, fsWritten, [okMsg], [.acquire, .payloadDone, .release]⟩
  else
    ⟨some .createError, fs,
     ["Error: Cannot create file: " ++ env.errStr], [.acquire, .release]⟩

/-- `receive_file` from `server.c` (lines 370–513).

Inputs are the department selector, declared destination path, declared
length (already decoded from the 4-byte big-endian field by `ntohl`, so a
value below `2^32`), and the payload `recv` schedule; `none` models a
`recv` returning zero or fewer bytes. -/
def receive_file (env : StorageEnv) (fs : FileSys) (authInfo : AuthInfo)
    (deptIn fpIn : Option String) (sizeIn : Option Nat)
    (chunks : List (List Nat)) : RecvOut :=
  match deptIn with
  | none => ⟨some .connError, fs, [], []⟩
  | some dRaw =>
    let department := recvMsg dRaw 31
    if check_access department authInfo then
      match fpIn with
      | none => ⟨some .connError, fs, [], []⟩
      | some fpRaw =>
        let filepath := recvMsg fpRaw 255
        let filename := extract_filename filepath
        if department = "Manufacturing" ∨ department = "Distribution" then
          match sizeIn with
          | none => ⟨some .connError, fs, [], []⟩
          | some file_size =>
            store_file env fs authInfo department filename file_size chunks
        else
          ⟨some .invalidDept, fs, ["Error: Invalid department"], []⟩
    else
      ⟨some .authzError, fs,
       ["Error: You don't have access to the " ++ department ++ " department"],
       []⟩

/-- Split a character list into path components at `'/'`, keeping empty
components (so `"/a//b"` gives `["", "a", "", "b"]`). -/
def splitComponents : List Char → List (List Char)
  | [] => [[]]
  | c :: cs =>
    match splitComponents cs with
    | [] => [[]]
    | comp :: rest =>
      if c = '/' then [] :: comp :: rest else (c :: comp) :: rest

/-- POSIX-style resolution of a component list against an already-resolved
stack: empty components and `"."` are skipped, `".."` pops (clamping at the
root), anything else is pushed. -/
def resolveFrom (acc : List (List Char)) : List (List Char) → List (List Char)
  | [] => acc
  | comp :: rest =>
    if comp = [] ∨ comp = ['.'] then resolveFrom acc rest
    else if comp = ['.', '.'] then resolveFrom acc.dropLast rest
    else resolveFrom (acc ++ [comp]) rest

/-- The resolved (normalised) component list of a path string. -/
def resolvePath (p : String) : List (List Char) :=
  resolveFrom [] (splitComponents p.data)

/-- `p` stays within directory `dir`: the resolution of `dir` is a prefix
of the resolution of `p`. -/
def confined (dir p : String) : Bool :=
  (resolvePath p).take (resolvePath dir).length == resolvePath dir

/-- The fixed department priority order of the specification. -/
def departmentPriority : List String :=
  ["Manufacturing", "Distribution"]

/-- Modelled from the spec (§4.2 department policy): assign the first
department in priority order among the groups the identity belongs to;
no matching group means no department. -/
def spec_department (memberOf : String → Bool) : Option String :=
  match departmentPriority.filter memberOf with
  | [] => none
  | d :: _ => some d

/-! ### Filesystem lemmas -/

theorem fsGet_fsSet_self (fs : FileSys) (p : String) (d : List Nat) :
    fsGet (fsSet fs p d) p = some d := by
  simp [fsGet, fsSet]

theorem fsGet_fsErase_ne (fs : FileSys) (p q : String) (h : q ≠ p) :
    fsGet (fsErase fs p) q = fsGet fs q := by
  induction fs with
  | nil => rfl
  | cons e rest ih =>
    by_cases hp : e.fst = p
    · have hq : e.fst ≠ q := by rw [hp]; exact fun he => h he.symm
      rw [fsErase, if_pos hp, ih, fsGet, if_neg hq]
    · rw [fsErase, if_neg hp, fsGet, fsGet]
      by_cases hq : e.fst = q
      · rw [if_pos hq, if_pos hq]
      · rw [if_neg hq, if_neg hq, ih]

theorem fsGet_fsSet_ne (fs : FileSys) (p q : String) (d : List Nat)
    (h : q ≠ p) : fsGet (fsSet fs p d) q = fsGet fs q := by
  rw [fsSet, fsGet, if_neg (fun he => h he.symm)]
  exact fsGet_fsErase_ne fs p q h

/-! ### Payload-loop lemmas -/

theorem write_loop_exact (chunks : List (List Nat)) :
    ∀ (remaining : Nat) (acc : List Nat),
      chunks_exact remaining chunks = true →
      write_loop chunks remaining acc = (true, acc ++ chunks.flatten) := by
  induction chunks with
  | nil =>
    intro remaining acc h
    simp [chunks_exact] at h
    simp [write_loop, h]
  | cons c cs ih =>
    intro remaining acc h
    simp only [chunks_exact, Bool.and_eq_true, bne_iff_ne, ne_eq,
      decide_eq_true_eq] at h
    obtain ⟨⟨hne, hle⟩, hrest⟩ := h
    have hpos : 0 < c.length := Nat.pos_of_ne_zero hne
    have hcr : c.length ≤ remaining := Nat.le_trans hle (Nat.min_le_left _ _)
    have hr : ¬remaining = 0 := by omega
    rw [write_loop]
    rw [if_neg hr, if_neg (by omega : ¬c.length = 0)]
    rw [ih (remaining - c.length) (acc ++ c) hrest]
    simp

theorem chunks_exact_flatten_length (chunks : List (List Nat)) :
    ∀ remaining : Nat, chunks_exact remaining chunks = true →
      chunks.flatten.length = remaining := by
  induction chunks with
  | nil =>
    intro remaining h
    simp [chunks_exact] at h
    simp [h]
  | cons c cs ih =>
    intro remaining h
    simp only [chunks_exact, Bool.and_eq_true, bne_iff_ne, ne_eq,
      decide_eq_true_eq] at h
    obtain ⟨⟨hne, hle⟩, hrest⟩ := h
    have hpos : 0 < c.length := Nat.pos_of_ne_zero hne
    have hcr : c.length ≤ remaining := Nat.le_trans hle (Nat.min_le_left _ _)
    have := ih (remaining - c.length) hrest
    simp only [List.flatten_cons, List.length_append, this]
    omega

theorem write_loop_short (chunks : List (List Nat)) :
    ∀ (remaining : Nat) (acc : List Nat),
      chunks_ok remaining chunks = true →
      chunks.flatten.length < remaining →
      write_loop chunks remaining acc = (false, acc ++ chunks.flatten) := by
  induction chunks with
  | nil =>
    intro remaining acc _ hlt
    simp at hlt
    simp [write_loop, Nat.ne_of_gt hlt]
  | cons c cs ih =>
    intro remaining acc h hlt
    simp only [chunks_ok, Bool.and_eq_true, bne_iff_ne, ne_eq,
      decide_eq_true_eq] at h
    obtain ⟨⟨hne, hle⟩, hrest⟩ := h
    have hpos : 0 < c.length := Nat.pos_of_ne_zero hne
    simp only [List.flatten_cons, List.length_append] at hlt
    have hr : ¬remaining = 0 := by omega
    rw [write_loop]
    rw [if_neg hr, if_neg (by omega : ¬c.length = 0)]
    rw [ih (remaining - c.length) (acc ++ c) hrest (by omega)]
    simp

/-! ### C1 — authorization mismatch -/

/-- **C1.** For every authenticated session and every department selector
received in the File-Receive Protocol, if the selector does not equal the
session's department exactly, the transfer fails with an authorization
error, one explanatory message is sent to the peer, and the filesystem is
unchanged (no destination file is created). -/
theorem c1_authz_mismatch_rejected (env : StorageEnv) (fs : FileSys)
    (authInfo : AuthInfo) (dRaw : String) (fpIn : Option String)
    (sizeIn : Option Nat) (chunks : List (List Nat))
    (h : recvMsg dRaw 31 ≠ authInfo.department) :
    receive_file env fs authInfo (some dRaw) fpIn sizeIn chunks =
      ⟨some RecvError.authzError, fs,
       ["Error: You don't have access to the " ++ recvMsg dRaw 31 ++
         " department"], []⟩ := by
  simp [receive_file, check_access, h]

/-- Witness for C1 at a concrete mismatching selector. -/
theorem c1_authz_mismatch_rejected_witness :
    receive_file ⟨fun _ => true, "e"⟩ [] ⟨"alice", "Manufacturing", 1000, 1000⟩
        (some "Distribution") none none [] =
      ⟨some RecvError.authzError, [],
       ["Error: You don't have access to the Distribution department"],
       []⟩ :=
  c1_authz_mismatch_rejected _ _ _ _ _ _ _ (by decide)

/-! ### C3 — credential is never verified -/

/-- **C3.** Two runs of `authenticate_user` on the same identity message
but arbitrary different non-empty credential messages have identical
outcomes (result session and responses sent): the credential value is
never inspected. -/
theorem c3_credential_irrelevant (env : SysEnv) (u p1 p2 : String)
    (_h1 : p1 ≠ "") (_h2 : p2 ≠ "") (_h12 : p1 ≠ p2) :
    authenticate_user env (some u) (some p1) =
      authenticate_user env (some u) (some p2) := rfl

/-- Witness for C3 at two concrete distinct passwords. -/
theorem c3_credential_irrelevant_witness :
    authenticate_user ⟨fun _ => none, fun _ => none⟩ (some "alice")
        (some "hunter2") =
      authenticate_user ⟨fun _ => none, fun _ => none⟩ (some "alice")
        (some "letmein") :=
  c3_credential_irrelevant _ _ _ _ (by decide) (by decide) (by decide)

/-! ### C4 — department assignment matches the reference policy -/

/-- **C4.** When the identity resolves, the outcome of `authenticate_user`
equals the reference policy `spec_department`: sole mapped group → that
department; no mapped group → failure with the no-department message and
no session; both mapped groups → the first department in priority order
(Manufacturing), deterministically and not as an error. -/
theorem c4_department_matches_policy (env : SysEnv) (u p : String)
    (pwd : PasswdEntry) (hpwd : env.getpwnam (recvMsg u 31) = some pwd) :
    authenticate_user env (some u) (some p) =
      match spec_department (fun g => is_user_in_group env (recvMsg u 31) g) with
      | some dept =>
        (some ⟨recvMsg u 31, dept, pwd.uid, pwd.gid⟩,
         ["Authentication successful. Department: " ++ dept])
      | none =>
        (none, ["Authentication failed: User not in required groups"]) := by
  cases hM : is_user_in_group env (recvMsg u 31) "Manufacturing" <;>
    cases hD : is_user_in_group env (recvMsg u 31) "Distribution" <;>
      simp [authenticate_user, spec_department, departmentPriority, hpwd,
        hM, hD, List.filter]

/-- Witness for C4: a user in both groups is assigned Manufacturing. -/
theorem c4_department_matches_policy_witness :
    authenticate_user
        ⟨fun u => if u == "carol" then some ⟨1002, 60⟩ else none,
         fun g => if g == "Manufacturing" then some ⟨50, ["carol"]⟩
                  else if g == "Distribution" then some ⟨60, []⟩ else none⟩
        (some "carol") (some "pw") =
      (some ⟨"carol", "Manufacturing", 1002, 60⟩,
       ["Authentication successful. Department: Manufacturing"]) := by
  rw [c4_department_matches_policy _ _ _ ⟨1002, 60⟩ (by decide)]
  decide

/-! ### Shape lemmas for store_file and receive_file -/

theorem store_file_result_ne_invalid (env : StorageEnv) (fs : FileSys)
    (auth : AuthInfo) (dept fn : String) (L : Nat)
    (chunks : List (List Nat)) :
    (store_file env fs auth dept fn L chunks).result ≠
      some RecvError.invalidDept := by
  unfold store_file
  split
  all_goals dsimp only
  all_goals split_ifs <;> simp

/-- Reaching the storage phase: when the selector equals the session's
department and names a known department, `receive_file` runs
`store_file`. -/
theorem receive_file_eq_store (env : StorageEnv) (fs : FileSys)
    (auth : AuthInfo) (dRaw fpRaw : String) (L : Nat)
    (chunks : List (List Nat))
    (hacc : recvMsg dRaw 31 = auth.department)
    (hdep : recvMsg dRaw 31 = "Manufacturing" ∨
      recvMsg dRaw 31 = "Distribution") :
    receive_file env fs auth (some dRaw) (some fpRaw) (some L) chunks =
      store_file env fs auth (recvMsg dRaw 31)
        (extract_filename (recvMsg fpRaw 255)) L chunks := by
  have hc : check_access (recvMsg dRaw 31) auth = true := by
    simp [check_access, hacc]
  simp only [receive_file, hc, if_true, if_pos hdep]

/-! ### C10 — the invalid-department branch is unreachable -/

theorem authenticate_department_cases (env : SysEnv)
    (uIn pIn : Option String) (auth : AuthInfo)
    (hauth : (authenticate_user env uIn pIn).fst = some auth) :
    auth.department = "Manufacturing" ∨ auth.department = "Distribution" := by
  cases uIn with
  | none => simp [authenticate_user] at hauth
  | some uRaw =>
    cases pIn with
    | none => simp [authenticate_user] at hauth
    | some pRaw =>
      cases hp : env.getpwnam (recvMsg uRaw 31) with
      | none => simp [authenticate_user, hp] at hauth
      | some pwd =>
        cases hM : is_user_in_group env (recvMsg uRaw 31) "Manufacturing" <;>
          cases hD : is_user_in_group env (recvMsg uRaw 31) "Distribution" <;>
            simp [authenticate_user, hp, hM, hD] at hauth <;>
              (subst hauth; simp)

/-- **C10.** Every session produced by successful authentication has
department Manufacturing or Distribution, and consequently, for such a
session, the invalid-department branch of the File-Receive Protocol is
unreachable: no run of `receive_file` yields `InvalidDepartment`. -/
theorem c10_invalid_department_unreachable (env : SysEnv)
    (uIn pIn : Option String) (auth : AuthInfo)
    (hauth : (authenticate_user env uIn pIn).fst = some auth) :
    (auth.department = "Manufacturing" ∨ auth.department = "Distribution") ∧
      ∀ (envS : StorageEnv) (fs : FileSys) (deptIn fpIn : Option String)
        (sizeIn : Option Nat) (chunks : List (List Nat)),
        (receive_file envS fs auth deptIn fpIn sizeIn chunks).result ≠
          some RecvError.invalidDept := by
  have hdep := authenticate_department_cases env uIn pIn auth hauth
  refine ⟨hdep, ?_⟩
  intro envS fs deptIn fpIn sizeIn chunks
  cases deptIn with
  | none => simp [receive_file]
  | some dRaw =>
    by_cases hacc : recvMsg dRaw 31 = auth.department
    · have hcond : recvMsg dRaw 31 = "Manufacturing" ∨
          recvMsg dRaw 31 = "Distribution" := by
        rw [hacc]; exact hdep
      have hc : check_access (recvMsg dRaw 31) auth = true := by
        simp [check_access, hacc]
      cases fpIn with
      | none => simp [receive_file, hc]
      | some fpRaw =>
        cases sizeIn with
        | none => simp [receive_file, hc, if_pos hcond]
        | some L =>
          simp only [receive_file, hc, if_true, if_pos hcond]
          exact store_file_result_ne_invalid _ _ _ _ _ _ _
    · have hc : check_access (recvMsg dRaw 31) auth = false := by
        simp [check_access, hacc]
      simp [receive_file, hc]

/-- Witness for C10 at a concrete authenticated session. -/
theorem c10_invalid_department_unreachable_witness :
    (receive_file ⟨fun _ => true, "e"⟩ [] ⟨"alice", "Manufacturing", 1000, 50⟩
        (some "Manufacturing") (some "f") (some 0) []).result ≠
      some RecvError.invalidDept :=
  (c10_invalid_department_unreachable
    ⟨fun u => if u == "alice" then some ⟨1000, 50⟩ else none,
     fun g => if g == "Manufacturing" then some ⟨50, ["alice"]⟩ else none⟩
    (some "alice") (some "pw") ⟨"alice", "Manufacturing", 1000, 50⟩
    (by decide)).2 _ _ _ _ _ _

theorem store_file_short (env : StorageEnv) (fs : FileSys) (auth : AuthInfo)
    (dept fn : String) (L : Nat) (chunks : List (List Nat))
    (hopen : env.canOpen (dest_path (dept_dir dept) fn) = true)
    (hok : chunks_ok L chunks = true)
    (hshort : chunks.flatten.length < L) :
    store_file env fs auth dept fn L chunks =
      ⟨some RecvError.dataError,
       fsSet (fsSet fs (dest_path (dept_dir dept) fn) [])
         (dest_path (dept_dir dept) fn) chunks.flatten, [],
       [Event.acquire, Event.release]⟩ := by
  simp only [store_file, hopen, if_true,
    write_loop_short chunks L [] hok hshort, List.nil_append]

theorem store_file_complete (env : StorageEnv) (fs : FileSys)
    (auth : AuthInfo) (dept fn : String) (L : Nat)
    (chunks : List (List Nat))
    (hopen : env.canOpen (dest_path (dept_dir dept) fn) = true)
    (hch : chunks_exact L chunks = true) :
    store_file env fs auth dept fn L chunks =
      (if env.canOpen (attribution_path (dept_dir dept) fn) = true then
        ⟨none,
         fsSet (fsSet (fsSet fs (dest_path (dept_dir dept) fn) [])
             (dest_path (dept_dir dept) fn) chunks.flatten)
           (attribution_path (dept_dir dept) fn) (strBytes auth.username),
         ["File '" ++ fn ++ "' successfully transferred to " ++ dept ++
           " department"],
         [Event.acquire, Event.payloadDone, Event.sidecarDone,
          Event.release]⟩
      else
        ⟨none,
         fsSet (fsSet fs (dest_path (dept_dir dept) fn) [])
           (dest_path (dept_dir dept) fn) chunks.flatten,
         ["File '" ++ fn ++ "' successfully transferred to " ++ dept ++
           " department"],
         [Event.acquire, Event.payloadDone, Event.release]⟩) := by
  simp only [store_file, hopen, if_true,
    write_loop_exact chunks L [] hch, List.nil_append]

/-! ### C6 — short payload read leaves the partial file on disk -/

/-- **C6.** Whenever the payload `recv` schedule ends before the declared
length is reached, the transfer fails with a fatal transfer error, no
response is sent for it, and the partially written destination file is left
on disk holding exactly the bytes received so far (no rollback), with the
guard released. -/
theorem c6_short_read_keeps_incomplete_file (env : StorageEnv) (fs : FileSys)
    (auth : AuthInfo) (dRaw fpRaw : String) (L : Nat)
    (chunks : List (List Nat))
    (hacc : recvMsg dRaw 31 = auth.department)
    (hdep : recvMsg dRaw 31 = "Manufacturing" ∨
      recvMsg dRaw 31 = "Distribution")
    (hopen : env.canOpen (dest_path (dept_dir (recvMsg dRaw 31))
      (extract_filename (recvMsg fpRaw 255))) = true)
    (hok : chunks_ok L chunks = true)
    (hshort : chunks.flatten.length < L) :
    (receive_file env fs auth (some dRaw) (some fpRaw) (some L)
        chunks).result = some RecvError.dataError ∧
    fsGet (receive_file env fs auth (some dRaw) (some fpRaw) (some L)
        chunks).fs
      (dest_path (dept_dir (recvMsg dRaw 31))
        (extract_filename (recvMsg fpRaw 255))) = some chunks.flatten := by
  rw [receive_file_eq_store env fs auth dRaw fpRaw L chunks hacc hdep]
  rw [store_file_short env fs auth (recvMsg dRaw 31)
    (extract_filename (recvMsg fpRaw 255)) L chunks hopen hok hshort]
  exact ⟨rfl, fsGet_fsSet_self _ _ _⟩

/-- Witness for C6: declared length 5, stream ends after 2 bytes. -/
theorem c6_short_read_keeps_incomplete_file_witness :
    (receive_file ⟨fun _ => true, "e"⟩ [] ⟨"alice", "Manufacturing", 1000, 50⟩
        (some "Manufacturing") (some "report.txt") (some 5)
        [[10, 20]]).result = some RecvError.dataError ∧
    fsGet (receive_file ⟨fun _ => true, "e"⟩ []
        ⟨"alice", "Manufacturing", 1000, 50⟩ (some "Manufacturing")
        (some "report.txt") (some 5) [[10, 20]]).fs
      "/tmp/fileserver/Manufacturing/report.txt" = some [10, 20] :=
  c6_short_read_keeps_incomplete_file _ _ _ _ _ _ _ (by decide)
    (by decide) (by decide) (by decide) (by decide)

/-! ### C7 — attribution sidecar -/

theorem dept_dir_length_le (d : String) : (dept_dir d).data.length ≤ 29 := by
  unfold dept_dir
  split <;> decide

theorem attribution_path_length (dir fn : String) :
    (attribution_path dir fn).data.length =
      min 255 (dir.data.length + fn.data.length + 7) := by
  show ((dir.data ++ '/' :: (fn.data ++ ".owner".data)).take 255).length = _
  have h6 : (".owner".data).length = 6 := rfl
  simp [List.length_take, h6]
  omega

theorem dest_path_length (dir fn : String) :
    (dest_path dir fn).data.length =
      min 255 (dir.data.length + fn.data.length + 1) := by
  show ((dir.data ++ '/' :: fn.data).take 255).length = _
  simp [List.length_take]
  omega

theorem attribution_path_ne_dest (dir fn : String)
    (hlen : dir.data.length + fn.data.length + 7 ≤ 255) :
    attribution_path dir fn ≠ dest_path dir fn := by
  intro h
  have h1 := attribution_path_length dir fn
  have h2 := dest_path_length dir fn
  rw [h, h2] at h1
  omega

/-- Counterexample to **C7** as stated: when the `open` of the attribution
sidecar fails, `receive_file` still completes successfully (success
response sent, payload file present) with no attribution sidecar on
disk. -/
theorem c7_counterexample :
    (receive_file
        ⟨fun p => !(p == "/tmp/fileserver/Manufacturing/f.txt.owner"), "e"⟩
        [] ⟨"alice", "Manufacturing", 1000, 50⟩ (some "Manufacturing")
        (some "f.txt") (some 3) [[1, 2, 3]]).result = none ∧
    (receive_file
        ⟨fun p => !(p == "/tmp/fileserver/Manufacturing/f.txt.owner"), "e"⟩
        [] ⟨"alice", "Manufacturing", 1000, 50⟩ (some "Manufacturing")
        (some "f.txt") (some 3) [[1, 2, 3]]).sent =
      ["File 'f.txt' successfully transferred to Manufacturing department"] ∧
    fsGet (receive_file
        ⟨fun p => !(p == "/tmp/fileserver/Manufacturing/f.txt.owner"), "e"⟩
        [] ⟨"alice", "Manufacturing", 1000, 50⟩ (some "Manufacturing")
        (some "f.txt") (some 3) [[1, 2, 3]]).fs
      "/tmp/fileserver/Manufacturing/f.txt" = some [1, 2, 3] ∧
    fsGet (receive_file
        ⟨fun p => !(p == "/tmp/fileserver/Manufacturing/f.txt.owner"), "e"⟩
        [] ⟨"alice", "Manufacturing", 1000, 50⟩ (some "Manufacturing")
        (some "f.txt") (some 3) [[1, 2, 3]]).fs
      "/tmp/fileserver/Manufacturing/f.txt.owner" = none := by
  decide

/-- **C7 (amended).** For every completed transfer in which the sidecar's
`open` succeeds and the paths are short enough not to be truncated by the
256-byte path buffers (basename at most 219 bytes), exactly one attribution
sidecar `<basename>.owner` is written adjacent to the destination file, its
content is exactly the authenticated username with no trailing data, and
the payload file is present untouched beside it.  (The code, unlike the
claim, silently tolerates a failed sidecar `open` and still reports
success.) -/
theorem c7_amended_sidecar_written (env : StorageEnv) (fs : FileSys)
    (auth : AuthInfo) (dRaw fpRaw : String) (L : Nat)
    (chunks : List (List Nat))
    (hacc : recvMsg dRaw 31 = auth.department)
    (hdep : recvMsg dRaw 31 = "Manufacturing" ∨
      recvMsg dRaw 31 = "Distribution")
    (hlen : (extract_filename (recvMsg fpRaw 255)).data.length ≤ 219)
    (hopen : env.canOpen (dest_path (dept_dir (recvMsg dRaw 31))
      (extract_filename (recvMsg fpRaw 255))) = true)
    (hattr : env.canOpen (attribution_path (dept_dir (recvMsg dRaw 31))
      (extract_filename (recvMsg fpRaw 255))) = true)
    (hch : chunks_exact L chunks = true) :
    (receive_file env fs auth (some dRaw) (some fpRaw) (some L)
        chunks).result = none ∧
    fsGet (receive_file env fs auth (some dRaw) (some fpRaw) (some L)
        chunks).fs
      (attribution_path (dept_dir (recvMsg dRaw 31))
        (extract_filename (recvMsg fpRaw 255))) =
      some (strBytes auth.username) ∧
    fsGet (receive_file env fs auth (some dRaw) (some fpRaw) (some L)
        chunks).fs
      (dest_path (dept_dir (recvMsg dRaw 31))
        (extract_filename (recvMsg fpRaw 255))) = some chunks.flatten := by
  have hne : attribution_path (dept_dir (recvMsg dRaw 31))
      (extract_filename (recvMsg fpRaw 255)) ≠
      dest_path (dept_dir (recvMsg dRaw 31))
        (extract_filename (recvMsg fpRaw 255)) := by
    apply attribution_path_ne_dest
    have := dept_dir_length_le (recvMsg dRaw 31)
    omega
  rw [receive_file_eq_store env fs auth dRaw fpRaw L chunks hacc hdep]
  rw [store_file_complete env fs auth (recvMsg dRaw 31)
    (extract_filename (recvMsg fpRaw 255)) L chunks hopen hch]
  rw [if_pos hattr]
  refine ⟨rfl, fsGet_fsSet_self _ _ _, ?_⟩
  rw [fsGet_fsSet_ne _ _ _ _ (fun he => hne he.symm)]
  exact fsGet_fsSet_self _ _ _

/-- Witness for the amended C7 at a concrete upload. -/
theorem c7_amended_sidecar_written_witness :
    (receive_file ⟨fun _ => true, "e"⟩ [] ⟨"bob", "Distribution", 1001, 60⟩
        (some "Distribution") (some "docs/inv.txt") (some 4)
        [[9, 8, 7, 6]]).result = none ∧
    fsGet (receive_file ⟨fun _ => true, "e"⟩ []
        ⟨"bob", "Distribution", 1001, 60⟩ (some "Distribution")
        (some "docs/inv.txt") (some 4) [[9, 8, 7, 6]]).fs
      "/tmp/fileserver/Distribution/inv.txt.owner" = some (strBytes "bob") ∧
    fsGet (receive_file ⟨fun _ => true, "e"⟩ []
        ⟨"bob", "Distribution", 1001, 60⟩ (some "Distribution")
        (some "docs/inv.txt") (some 4) [[9, 8, 7, 6]]).fs
      "/tmp/fileserver/Distribution/inv.txt" = some [9, 8, 7, 6] :=
  c7_amended_sidecar_written _ _ _ _ _ _ _ (by decide) (by decide)
    (by decide) (by decide) (by decide) (by decide)

/-! ### C9 — Storage Guard release -/

theorem store_file_trace_shapes (env : StorageEnv) (fs : FileSys)
    (auth : AuthInfo) (dept fn : String) (L : Nat)
    (chunks : List (List Nat)) :
    (store_file env fs auth dept fn L chunks).trace =
        [Event.acquire, Event.release] ∨
    (store_file env fs auth dept fn L chunks).trace =
        [Event.acquire, Event.payloadDone, Event.release] ∨
    (store_file env fs auth dept fn L chunks).trace =
        [Event.acquire, Event.payloadDone, Event.sidecarDone,
         Event.release] := by
  unfold store_file
  split
  all_goals dsimp only
  all_goals split_ifs <;> simp

theorem store_file_success_trace (env : StorageEnv) (fs : FileSys)
    (auth : AuthInfo) (dept fn : String) (L : Nat)
    (chunks : List (List Nat))
    (h : (store_file env fs auth dept fn L chunks).result = none) :
    (env.canOpen (attribution_path (dept_dir dept) fn) = true →
      (store_file env fs auth dept fn L chunks).trace =
        [Event.acquire, Event.payloadDone, Event.sidecarDone,
         Event.release]) ∧
    (env.canOpen (attribution_path (dept_dir dept) fn) = false →
      (store_file env fs auth dept fn L chunks).trace =
        [Event.acquire, Event.payloadDone, Event.release]) := by
  by_cases hopen : env.canOpen (dest_path (dept_dir dept) fn) = true
  · rcases hw : write_loop chunks L [] with ⟨b, data⟩
    cases b
    · exfalso
      simp [store_file, hopen, hw] at h
    · constructor
      · intro hattr
        simp [store_file, hopen, hw, hattr]
      · intro hattr
        simp [store_file, hopen, hw, hattr]
  · exfalso
    simp [store_file, hopen] at h

theorem receive_file_trace_shapes (env : StorageEnv) (fs : FileSys)
    (auth : AuthInfo) (deptIn fpIn : Option String) (sizeIn : Option Nat)
    (chunks : List (List Nat)) :
    (receive_file env fs auth deptIn fpIn sizeIn chunks).trace = [] ∨
    (receive_file env fs auth deptIn fpIn sizeIn chunks).trace =
        [Event.acquire, Event.release] ∨
    (receive_file env fs auth deptIn fpIn sizeIn chunks).trace =
        [Event.acquire, Event.payloadDone, Event.release] ∨
    (receive_file env fs auth deptIn fpIn sizeIn chunks).trace =
        [Event.acquire, Event.payloadDone, Event.sidecarDone,
         Event.release] := by
  cases deptIn with
  | none => simp [receive_file]
  | some dRaw =>
    by_cases hc : check_access (recvMsg dRaw 31) auth = true
    · cases fpIn with
      | none => simp [receive_file, hc]
      | some fpRaw =>
        by_cases hdep : recvMsg dRaw 31 = "Manufacturing" ∨
            recvMsg dRaw 31 = "Distribution"
        · cases sizeIn with
          | none => simp [receive_file, hc, if_pos hdep]
          | some L =>
            simp only [receive_file, hc, if_true, if_pos hdep]
            exact Or.inr (store_file_trace_shapes _ _ _ _ _ _ _)
        · simp [receive_file, hc, if_neg hdep]
    · have hc' : check_access (recvMsg dRaw 31) auth = false := by
        simpa using hc
      simp [receive_file, hc']

/-- Counterexample to **C9** as stated: a run that completes successfully
(guard released, success reported) in which the attribution sidecar is
never written, so on this success path the guard is not released "only
after both the payload file and the attribution sidecar have been
written". -/
theorem c9_counterexample :
    (receive_file
        ⟨fun p => !(p == "/tmp/fileserver/Distribution/g.owner"), "e"⟩ []
        ⟨"bob", "Distribution", 1001, 60⟩ (some "Distribution") (some "g")
        (some 2) [[4, 5]]).result = none ∧
    (receive_file
        ⟨fun p => !(p == "/tmp/fileserver/Distribution/g.owner"), "e"⟩ []
        ⟨"bob", "Distribution", 1001, 60⟩ (some "Distribution") (some "g")
        (some 2) [[4, 5]]).trace =
      [Event.acquire, Event.payloadDone, Event.release] ∧
    Event.sidecarDone ∉
      (receive_file
        ⟨fun p => !(p == "/tmp/fileserver/Distribution/g.owner"), "e"⟩ []
        ⟨"bob", "Distribution", 1001, 60⟩ (some "Distribution") (some "g")
        (some 2) [[4, 5]]).trace := by
  decide

/-- **C9 (amended).** On every exit path of the File-Receive Protocol
reached after the Storage Guard has been acquired, the guard is released
before returning (the release is the last observed event); and on the
success path it is released only after the payload file and — exactly when
its creation succeeded — the attribution sidecar have been written. -/
theorem c9_amended_guard_released (env : StorageEnv) (fs : FileSys)
    (auth : AuthInfo) :
    (∀ (deptIn fpIn : Option String) (sizeIn : Option Nat)
       (chunks : List (List Nat)),
       Event.acquire ∈
           (receive_file env fs auth deptIn fpIn sizeIn chunks).trace →
       (receive_file env fs auth deptIn fpIn sizeIn chunks).trace.getLast? =
         some Event.release) ∧
    (∀ (dRaw fpRaw : String) (L : Nat) (chunks : List (List Nat)),
       (receive_file env fs auth (some dRaw) (some fpRaw) (some L)
           chunks).result = none →
       (env.canOpen (attribution_path (dept_dir (recvMsg dRaw 31))
           (extract_filename (recvMsg fpRaw 255))) = true →
         (receive_file env fs auth (some dRaw) (some fpRaw) (some L)
             chunks).trace =
           [Event.acquire, Event.payloadDone, Event.sidecarDone,
            Event.release]) ∧
       (env.canOpen (attribution_path (dept_dir (recvMsg dRaw 31))
           (extract_filename (recvMsg fpRaw 255))) = false →
         (receive_file env fs auth (some dRaw) (some fpRaw) (some L)
             chunks).trace =
           [Event.acquire, Event.payloadDone, Event.release])) := by
  constructor
  · intro deptIn fpIn sizeIn chunks hmem
    rcases receive_file_trace_shapes env fs auth deptIn fpIn sizeIn chunks
      with h | h | h | h <;> rw [h] <;> rw [h] at hmem <;> simp_all
  · intro dRaw fpRaw L chunks hres
    by_cases hc : check_access (recvMsg dRaw 31) auth = true
    · by_cases hdep : recvMsg dRaw 31 = "Manufacturing" ∨
          recvMsg dRaw 31 = "Distribution"
      · have hacc : recvMsg dRaw 31 = auth.department := by
          simpa [check_access] using hc
        rw [receive_file_eq_store env fs auth dRaw fpRaw L chunks hacc hdep]
          at hres ⊢
        exact store_file_success_trace _ _ _ _ _ _ _ hres
      · simp [receive_file, hc, if_neg hdep] at hres
    · have hc' : check_access (recvMsg dRaw 31) auth = false := by
        simpa using hc
      simp [receive_file, hc'] at hres

/-- Witness for the amended C9 at a concrete failing-create run and a
concrete successful run. -/
theorem c9_amended_guard_released_witness :
    (receive_file ⟨fun _ => true, "e"⟩ [] ⟨"alice", "Manufacturing", 1000, 50⟩
        (some "Manufacturing") (some "w.txt") (some 1) [[3]]).trace.getLast? =
      some Event.release :=
  (c9_amended_guard_released ⟨fun _ => true, "e"⟩ []
      ⟨"alice", "Manufacturing", 1000, 50⟩).1
    (some "Manufacturing") (some "w.txt") (some 1) [[3]] (by decide)

/-! ### C5 — declared length honoured (truncation collision bug) -/

/-- A 225-byte basename: long enough that `dest_path` fills the 256-byte
path buffer exactly and `attribution_path` is truncated back onto it. -/
def long_basename : String := ⟨List.replicate 225 'a'⟩

set_option maxRecDepth 20000

/-- **C5** fails on the code: for a 225-byte basename the two
`snprintf(.., 256, ..)` calls truncate `dest_path` and `attribution_path`
to the same 255-byte string, so the attribution write re-opens the
destination file with `O_TRUNC` and replaces the just-stored payload with
the username.  The transfer still reports success, but the stored file's
content is the username bytes, not the transmitted payload, and its size
is not the declared length. -/
theorem c5_truncation_collision :
    chunks_exact 3 [[1, 2, 3]] = true ∧
    attribution_path MANUFACTURING_DIR long_basename =
      dest_path MANUFACTURING_DIR long_basename ∧
    (receive_file ⟨fun _ => true, "e"⟩ []
        ⟨"alice", "Manufacturing", 1000, 50⟩ (some "Manufacturing")
        (some long_basename) (some 3) [[1, 2, 3]]).result = none ∧
    fsGet (receive_file ⟨fun _ => true, "e"⟩ []
        ⟨"alice", "Manufacturing", 1000, 50⟩ (some "Manufacturing")
        (some long_basename) (some 3) [[1, 2, 3]]).fs
      (dest_path MANUFACTURING_DIR long_basename) =
      some (strBytes "alice") ∧
    strBytes "alice" ≠ [1, 2, 3] := by
  decide

/-! ### C8 — one textual response per terminal error -/

theorem store_file_result_sent_shapes (env : StorageEnv) (fs : FileSys)
    (auth : AuthInfo) (dept fn : String) (L : Nat)
    (chunks : List (List Nat)) :
    ((store_file env fs auth dept fn L chunks).result =
        some RecvError.createError ∧
      (store_file env fs auth dept fn L chunks).sent.length = 1) ∨
    ((store_file env fs auth dept fn L chunks).result =
        some RecvError.dataError ∧
      (store_file env fs auth dept fn L chunks).sent = []) ∨
    ((store_file env fs auth dept fn L chunks).result = none ∧
      (store_file env fs auth dept fn L chunks).sent.length = 1) := by
  unfold store_file
  split
  all_goals dsimp only
  all_goals split_ifs <;> simp

theorem receive_file_result_sent_shapes (env : StorageEnv) (fs : FileSys)
    (auth : AuthInfo) (deptIn fpIn : Option String) (sizeIn : Option Nat)
    (chunks : List (List Nat)) :
    ((receive_file env fs auth deptIn fpIn sizeIn chunks).result =
        some RecvError.connError ∧
      (receive_file env fs auth deptIn fpIn sizeIn chunks).sent = []) ∨
    ((receive_file env fs auth deptIn fpIn sizeIn chunks).result =
        some RecvError.dataError ∧
      (receive_file env fs auth deptIn fpIn sizeIn chunks).sent = []) ∨
    ((receive_file env fs auth deptIn fpIn sizeIn chunks).result =
        some RecvError.authzError ∧
      (receive_file env fs auth deptIn fpIn sizeIn chunks).sent.length = 1) ∨
    ((receive_file env fs auth deptIn fpIn sizeIn chunks).result =
        some RecvError.invalidDept ∧
      (receive_file env fs auth deptIn fpIn sizeIn chunks).sent.length = 1) ∨
    ((receive_file env fs auth deptIn fpIn sizeIn chunks).result =
        some RecvError.createError ∧
      (receive_file env fs auth deptIn fpIn sizeIn chunks).sent.length = 1) ∨
    ((receive_file env fs auth deptIn fpIn sizeIn chunks).result = none ∧
      (receive_file env fs auth deptIn fpIn sizeIn chunks).sent.length =
        1) := by
  cases deptIn with
  | none => simp [receive_file]
  | some dRaw =>
    by_cases hc : check_access (recvMsg dRaw 31) auth = true
    · cases fpIn with
      | none => simp [receive_file, hc]
      | some fpRaw =>
        by_cases hdep : recvMsg dRaw 31 = "Manufacturing" ∨
            recvMsg dRaw 31 = "Distribution"
        · cases sizeIn with
          | none => simp [receive_file, hc, if_pos hdep]
          | some L =>
            simp only [receive_file, hc, if_true, if_pos hdep]
            rcases store_file_result_sent_shapes env fs auth
                (recvMsg dRaw 31) (extract_filename (recvMsg fpRaw 255)) L
                chunks with h | h | h
            · exact Or.inr (Or.inr (Or.inr (Or.inr (Or.inl h))))
            · exact Or.inr (Or.inl h)
            · exact Or.inr (Or.inr (Or.inr (Or.inr (Or.inr h))))
        · simp [receive_file, hc, if_neg hdep]
    · have hc' : check_access (recvMsg dRaw 31) auth = false := by
        simpa using hc
      simp [receive_file, hc']

/-- Counterexample to **C8** as stated: a payload read failing mid-transfer
is a terminal transfer error, yet zero textual responses are sent to the
peer before the connection closes (the claim requires exactly one for
every terminal error, including read failures). -/
theorem c8_counterexample :
    (receive_file ⟨fun _ => true, "e"⟩ [] ⟨"alice", "Manufacturing", 1000, 50⟩
        (some "Manufacturing") (some "f") (some 5) []).result =
      some RecvError.dataError ∧
    (receive_file ⟨fun _ => true, "e"⟩ [] ⟨"alice", "Manufacturing", 1000, 50⟩
        (some "Manufacturing") (some "f") (some 5) []).sent = [] := by
  decide

/-- **C8 (amended).** Every terminal error other than a failed read sends
exactly one textual response to the peer before the connection is closed
(send failures are swallowed); errors caused by a read yielding zero or
fewer bytes — failed identity/credential/selector/path/length reads and
failed payload reads — send none. -/
theorem c8_amended_error_reporting :
    (∀ (env : SysEnv) (uIn pIn : Option String),
       (authenticate_user env uIn pIn).fst = none →
       ((uIn = none ∨ pIn = none) →
         (authenticate_user env uIn pIn).snd = []) ∧
       (uIn ≠ none → pIn ≠ none →
         (authenticate_user env uIn pIn).snd.length = 1)) ∧
    (∀ (env : StorageEnv) (fs : FileSys) (auth : AuthInfo)
       (deptIn fpIn : Option String) (sizeIn : Option Nat)
       (chunks : List (List Nat)) (e : RecvError),
       (receive_file env fs auth deptIn fpIn sizeIn chunks).result =
         some e →
       ((e = RecvError.connError ∨ e = RecvError.dataError) →
         (receive_file env fs auth deptIn fpIn sizeIn chunks).sent = []) ∧
       ((e = RecvError.authzError ∨ e = RecvError.invalidDept ∨
           e = RecvError.createError) →
         (receive_file env fs auth deptIn fpIn sizeIn chunks).sent.length =
           1)) := by
  constructor
  · intro env uIn pIn hres
    cases uIn with
    | none => exact ⟨fun _ => rfl, fun hu _ => absurd rfl hu⟩
    | some uRaw =>
      cases pIn with
      | none => exact ⟨fun _ => rfl, fun _ hp => absurd rfl hp⟩
      | some pRaw =>
        refine ⟨fun h => ?_, fun _ _ => ?_⟩
        · rcases h with h | h <;> simp at h
        · cases hp : env.getpwnam (recvMsg uRaw 31) with
          | none => simp [authenticate_user, hp]
          | some pwd =>
            cases hM : is_user_in_group env (recvMsg uRaw 31)
                "Manufacturing" <;>
              cases hD : is_user_in_group env (recvMsg uRaw 31)
                  "Distribution" <;>
                simp_all [authenticate_user, hp, hM, hD]
  · intro env fs auth deptIn fpIn sizeIn chunks e hres
    rcases receive_file_result_sent_shapes env fs auth deptIn fpIn sizeIn
        chunks with ⟨h1, h2⟩ | ⟨h1, h2⟩ | ⟨h1, h2⟩ | ⟨h1, h2⟩ | ⟨h1, h2⟩ |
        ⟨h1, h2⟩ <;> rw [hres] at h1
    · have he := Option.some.inj h1
      subst he
      exact ⟨fun _ => h2, fun h => by rcases h with h | h | h <;> simp at h⟩
    · have he := Option.some.inj h1
      subst he
      exact ⟨fun _ => h2, fun h => by rcases h with h | h | h <;> simp at h⟩
    · have he := Option.some.inj h1
      subst he
      exact ⟨fun h => by rcases h with h | h <;> simp at h, fun _ => h2⟩
    · have he := Option.some.inj h1
      subst he
      exact ⟨fun h => by rcases h with h | h <;> simp at h, fun _ => h2⟩
    · have he := Option.some.inj h1
      subst he
      exact ⟨fun h => by rcases h with h | h <;> simp at h, fun _ => h2⟩
    · simp at h1

/-- Witness for the amended C8: a failed identity read sends nothing; an
authorization failure sends exactly one message. -/
theorem c8_amended_error_reporting_witness :
    (authenticate_user ⟨fun _ => none, fun _ => none⟩ none none).snd = [] ∧
    (receive_file ⟨fun _ => true, "e"⟩ [] ⟨"alice", "Manufacturing", 1000, 50⟩
        (some "Distribution") none none []).sent.length = 1 :=
  ⟨(c8_amended_error_reporting.1 ⟨fun _ => none, fun _ => none⟩ none none
      (by decide)).1 (Or.inl rfl),
   (c8_amended_error_reporting.2 ⟨fun _ => true, "e"⟩ []
      ⟨"alice", "Manufacturing", 1000, 50⟩ (some "Distribution") none none
      [] RecvError.authzError (by decide)).2 (Or.inl rfl)⟩

/-! ### C2 — basename extraction and confinement -/

theorem slash_not_mem_foldl (l : List Char) :
    ∀ acc : List Char, '/' ∉ acc →
      '/' ∉ l.foldl (fun acc c => if c = '/' then [] else acc ++ [c]) acc := by
  induction l with
  | nil => intro acc h; exact h
  | cons c cs ih =>
    intro acc h
    simp only [List.foldl_cons]
    apply ih
    by_cases hc : c = '/'
    · rw [if_pos hc]
      exact List.not_mem_nil _
    · rw [if_neg hc]
      intro hm
      rcases List.mem_append.mp hm with hm | hm
      · exact h hm
      · exact hc (List.mem_singleton.mp hm).symm

theorem extract_filename_no_slash (fp : String) :
    '/' ∉ (extract_filename fp).data :=
  slash_not_mem_foldl fp.data [] (List.not_mem_nil _)

theorem splitComponents_ne_nil (l : List Char) : splitComponents l ≠ [] := by
  cases l with
  | nil => simp [splitComponents]
  | cons c cs =>
    rw [splitComponents]
    rcases h : splitComponents cs with _ | ⟨comp, rest⟩
    · simp
    · split_ifs <;> simp

theorem splitComponents_no_slash (l : List Char) (h : '/' ∉ l) :
    splitComponents l = [l] := by
  induction l with
  | nil => rfl
  | cons c cs ih =>
    have hc : c ≠ '/' := fun he => h (he ▸ List.mem_cons_self _ _)
    have hcs : '/' ∉ cs := fun hm => h (List.mem_cons_of_mem _ hm)
    rw [splitComponents, ih hcs]
    simp [hc]

theorem splitComponents_append (a b : List Char) (hb : '/' ∉ b) :
    splitComponents (a ++ '/' :: b) = splitComponents a ++ [b] := by
  induction a with
  | nil =>
    rw [List.nil_append]
    have hb' := splitComponents_no_slash b hb
    simp [splitComponents, hb']
  | cons c a' ih =>
    obtain ⟨comp, rest, hsc⟩ :
        ∃ comp rest, splitComponents a' = comp :: rest := by
      rcases h : splitComponents a' with _ | ⟨x, xs⟩
      · exact absurd h (splitComponents_ne_nil a')
      · exact ⟨x, xs, rfl⟩
    rw [List.cons_append, splitComponents, ih, hsc, List.cons_append,
      splitComponents, hsc]
    by_cases hc : c = '/' <;> simp [hc]

theorem resolveFrom_append (xs ys : List (List Char)) :
    ∀ acc, resolveFrom acc (xs ++ ys) =
      resolveFrom (resolveFrom acc xs) ys := by
  induction xs with
  | nil => intro acc; rfl
  | cons x xs ih =>
    intro acc
    simp only [List.cons_append, resolveFrom]
    split_ifs <;> apply ih

theorem resolvePath_append (dir : String) (m : List Char) (hm : '/' ∉ m) :
    resolvePath ⟨dir.data ++ '/' :: m⟩ =
      resolveFrom (resolvePath dir) [m] := by
  show resolveFrom [] (splitComponents (dir.data ++ '/' :: m)) = _
  rw [splitComponents_append dir.data m hm, resolveFrom_append]
  rfl

theorem confined_append (dir : String) (m : List Char) (hm : '/' ∉ m)
    (hm2 : m ≠ ['.', '.']) :
    confined dir ⟨dir.data ++ '/' :: m⟩ = true := by
  unfold confined
  rw [resolvePath_append dir m hm]
  by_cases h0 : m = [] ∨ m = ['.']
  · simp [resolveFrom, h0]
  · rw [resolveFrom, if_neg h0, if_neg hm2, resolveFrom]
    simp

theorem take_eq_dotdot (l : List Char) (k : Nat) (hk : 3 ≤ k)
    (h : l.take k = ['.', '.']) : l = ['.', '.'] := by
  have h1 : (l.take k).length = 2 := by rw [h]; rfl
  rw [List.length_take] at h1
  have h2 : l.length ≤ k := by omega
  rw [List.take_of_length_le h2] at h
  exact h

theorem dest_path_data (dir fn : String) (h : dir.data.length ≤ 254) :
    (dest_path dir fn).data =
      dir.data ++ '/' :: fn.data.take (254 - dir.data.length) := by
  show (dir.data ++ '/' :: fn.data).take 255 = _
  rw [List.take_append_eq_append_take,
    List.take_of_length_le (by omega : dir.data.length ≤ 255)]
  have h1 : 255 - dir.data.length = (254 - dir.data.length) + 1 := by omega
  rw [h1, List.take_succ_cons]

/-- Counterexample to **C2** as stated: for the declared destination path
`"secret/.."` the final path component is `".."`, so the stored file path
`<department directory>/..` resolves to `/tmp/fileserver`, the parent of
the department directory — the path does escape the department
directory. -/
theorem c2_counterexample :
    extract_filename (recvMsg "secret/.." 255) = ".." ∧
    confined MANUFACTURING_DIR
      (dest_path MANUFACTURING_DIR
        (extract_filename (recvMsg "secret/.." 255))) = false ∧
    resolvePath (dest_path MANUFACTURING_DIR
        (extract_filename (recvMsg "secret/.." 255))) =
      resolvePath "/tmp/fileserver" := by
  decide

/-- **C2 (amended).** For every destination path declared by the client,
only the final component after the last `'/'` is used as the stored base
name: the base name never contains a separator, and the stored path is the
department directory plus `'/'` plus the base name (truncated by the
256-byte path buffer).  Provided the final component is not itself `".."`,
the stored path never escapes the department directory; a final component
of `".."` names the parent directory itself. -/
theorem c2_amended_basename_confined (fp : String)
    (h : extract_filename (recvMsg fp 255) ≠ "..") :
    '/' ∉ (extract_filename (recvMsg fp 255)).data ∧
    (dest_path MANUFACTURING_DIR (extract_filename (recvMsg fp 255))).data =
      MANUFACTURING_DIR.data ++
        '/' :: (extract_filename (recvMsg fp 255)).data.take 225 ∧
    (dest_path DISTRIBUTION_DIR (extract_filename (recvMsg fp 255))).data =
      DISTRIBUTION_DIR.data ++
        '/' :: (extract_filename (recvMsg fp 255)).data.take 226 ∧
    confined MANUFACTURING_DIR
      (dest_path MANUFACTURING_DIR
        (extract_filename (recvMsg fp 255))) = true ∧
    confined DISTRIBUTION_DIR
      (dest_path DISTRIBUTION_DIR
        (extract_filename (recvMsg fp 255))) = true := by
  have hns : '/' ∉ (extract_filename (recvMsg fp 255)).data :=
    extract_filename_no_slash _
  have hdd : ∀ k : Nat, 3 ≤ k →
      (extract_filename (recvMsg fp 255)).data.take k ≠ ['.', '.'] := by
    intro k hk hcontra
    apply h
    have := take_eq_dotdot _ k hk hcontra
    exact String.ext this
  have htk : ∀ k : Nat,
      '/' ∉ (extract_filename (recvMsg fp 255)).data.take k := by
    intro k hmem
    exact hns (List.take_subset _ _ hmem)
  have hM : (dest_path MANUFACTURING_DIR
      (extract_filename (recvMsg fp 255))).data =
        MANUFACTURING_DIR.data ++
          '/' :: (extract_filename (recvMsg fp 255)).data.take 225 :=
    dest_path_data _ _ (by decide)
  have hD : (dest_path DISTRIBUTION_DIR
      (extract_filename (recvMsg fp 255))).data =
        DISTRIBUTION_DIR.data ++
          '/' :: (extract_filename (recvMsg fp 255)).data.take 226 :=
    dest_path_data _ _ (by decide)
  refine ⟨hns, hM, hD, ?_, ?_⟩
  · have he : dest_path MANUFACTURING_DIR
        (extract_filename (recvMsg fp 255)) =
        ⟨MANUFACTURING_DIR.data ++
          '/' :: (extract_filename (recvMsg fp 255)).data.take 225⟩ :=
      String.ext hM
    rw [he]
    exact confined_append _ _ (htk 225) (hdd 225 (by omega))
  · have he : dest_path DISTRIBUTION_DIR
        (extract_filename (recvMsg fp 255)) =
        ⟨DISTRIBUTION_DIR.data ++
          '/' :: (extract_filename (recvMsg fp 255)).data.take 226⟩ :=
      String.ext hD
    rw [he]
    exact confined_append _ _ (htk 226) (hdd 226 (by omega))

/-- Witness for the amended C2 at the spec's own example
`"../../etc/passwd"`. -/
theorem c2_amended_basename_confined_witness :
    confined MANUFACTURING_DIR
      (dest_path MANUFACTURING_DIR
        (extract_filename (recvMsg "../../etc/passwd" 255))) = true :=
  (c2_amended_basename_confined "../../etc/passwd" (by decide)).2.2.2.1

end FileServer
